/-
Verification of the shiv-websocket trading-signal relay (src/server.js,
first variant, lines 1-773) against its natural-language specification.

The JavaScript source is shallowly embedded: each relevant function is
translated into a pure Lean definition.  Network calls (token refresh,
position fetch, funds fetch, order placement) are modelled by a `World`
record carrying each call's outcome, and the observable side effects of
one webhook invocation are collected into a list of `Effect` values in
the order the code performs them.  JavaScript `Map` state for duplicate
suppression is an explicit association list threaded through the
handler.  Timestamps are naturals (milliseconds); JS truthiness of the
relevant values (strings, numbers, objects) is modelled explicitly.
-/
import Mathlib

namespace ShivWebsocket

/-- An entry of the Upstox instrument catalog, as consumed by
`syncInstruments` in src/server.js (fields `trading_symbol`,
`exchange`, `instrument_key`). -/
structure Instrument where
  trading_symbol : String
  exchange : String
  instrument_key : String
deriving DecidableEq, Repr

/-- The by-symbol map `symbolToInstrumentMap` (src/server.js line 118),
modelled as a function from trading symbol to the stored instrument. -/
abbrev SymMap : Type := String → Option Instrument

/-- The empty by-symbol map. -/
def emptySymMap : SymMap := fun _ => none

/-- One step of the `instruments.forEach` body in `syncInstruments`
(src/server.js lines 156-168): skip entries with a falsy
`trading_symbol`; otherwise write the entry into the by-symbol map
when the slot is empty or the entry's exchange is NSE. -/
def recordInstrument (m : SymMap) (inst : Instrument) : SymMap :=
  if inst.trading_symbol = "" then m
  else if (m inst.trading_symbol).isNone ∨ inst.exchange = "NSE" then
    fun s => if s = inst.trading_symbol then some inst else m s
  else m

/-- Processing a list of catalog entries in order, as the segment loop
of `syncInstruments` does (the `instrumentMap` keyed by instrument_key
is irrelevant to the by-symbol behaviour and omitted). -/
def syncSymbolMap (m : SymMap) (l : List Instrument) : SymMap :=
  l.foldl recordInstrument m

/-- The spec-side notion used to compare the sync behaviour against
the spec's exchange-priority sentence: the last catalog entry for a
symbol whose exchange is NSE, if any. -/
def lastNseEntry (l : List Instrument) (s : String) : Option Instrument :=
  l.foldl
    (fun acc i =>
      if i.trading_symbol = s ∧ i.exchange = "NSE" then some i else acc)
    none

/-- The spec-side notion used to compare the sync behaviour against
the spec's last-writer sentence: the first catalog entry for a
symbol. -/
def firstEntryFor (l : List Instrument) (s : String) : Option Instrument :=
  l.find? (fun i => i.trading_symbol == s)

/-- JavaScript `String.prototype.split` with a one-character separator,
on the character-list level: `"a:b".split(":") = ["a","b"]`,
`"".split(":") = [""]`, `":".split(":") = ["",""]`. -/
def splitOnChar (c : Char) : List Char → List (List Char)
  | [] => [[]]
  | x :: xs =>
    match splitOnChar c xs with
    | [] => [[]]
    | h :: t => if x = c then [] :: h :: t else (x :: h) :: t

/-- `symbol.split(":")` as used throughout src/server.js. -/
def jsSplitColon (s : String) : List String :=
  (splitOnChar ':' s.data).map (fun l => ⟨l⟩)

/-- `data.symbol.split(":")[1]` (src/server.js line 564): the trading
symbol used for position matching; `none` models JS `undefined` when
the symbol has no ":" separator. -/
def tradingSymbolOf (symbol : String) : Option String :=
  (jsSplitColon symbol).get? 1

/-- `getInstrumentToken` (src/server.js lines 207-220): strip an
optional exchange prefix, consult the by-symbol map, return the
instrument key or `none`. -/
def getInstrumentToken (m : SymMap) (symbol : String) : Option String :=
  let parts := jsSplitColon symbol
  let tradingSymbol :=
    if parts.length > 1 then (parts.get? 1).getD "" else (parts.get? 0).getD ""
  match m tradingSymbol with
  | none => none
  | some inst => some inst.instrument_key

/-- A brokerage position (external read-only data): trading symbol and
signed quantity (`parseInt(p.quantity)` in the source). -/
structure Position where
  trading_symbol : String
  quantity : Int
deriving DecidableEq, Repr

/-- `positions.find(p => p.trading_symbol === tradingSymbol)`
(src/server.js line 565); when `ts` is `none` (JS `undefined`) the
strict equality is false for every position. -/
def findExisting (positions : List Position) (ts : Option String) : Option Position :=
  positions.find? (fun p => ts == some p.trading_symbol)

/-- `DUPLICATE_SIGNAL_WINDOW` (src/server.js line 111): one minute in
milliseconds. -/
def duplicateSignalWindow : Nat := 60000

/-- The `recentSignals` JS Map (src/server.js line 112): an
insertion-ordered association list from dedup key to last-seen
timestamp. -/
abbrev DedupMap : Type := List (String × Nat)

/-- The dedup key `symbol-action` built by `isDuplicateSignal`. -/
def dedupKey (symbol action : String) : String := symbol ++ "-" ++ action

/-- `recentSignals.get(key)`. -/
def dedupLookup (m : DedupMap) (k : String) : Option Nat :=
  (m.find? (fun e => e.1 == k)).map (fun e => e.2)

/-- `recentSignals.set(key, now)`: update in place when present,
append otherwise (JS Map insertion order). -/
def dedupSet (m : DedupMap) (k : String) (t : Nat) : DedupMap :=
  if (m.find? (fun e => e.1 == k)).isSome then
    m.map (fun e => if e.1 == k then (k, t) else e)
  else m ++ [(k, t)]

/-- The opportunistic cleanup in `isDuplicateSignal` (src/server.js
lines 272-276): once the tracker holds more than 100 entries, drop
those strictly older than the window. -/
def dedupCleanup (m : DedupMap) (now : Nat) : DedupMap :=
  if m.length > 100 then m.filter (fun e => ¬ (now - e.2 > duplicateSignalWindow)) else m

/-- `isDuplicateSignal` (src/server.js lines 261-278).  Returns the
boolean result together with the updated tracker.  The JS guard is
`lastTime && (now - lastTime) < WINDOW`: a stored timestamp of 0 is
falsy and is treated as absent, so the model tests `lastTime ≠ 0`. -/
def isDuplicateSignal (symbol action : String) (m : DedupMap) (now : Nat) :
    Bool × DedupMap :=
  let k := dedupKey symbol action
  match dedupLookup m k with
  | some lastTime =>
    if lastTime ≠ 0 ∧ now - lastTime < duplicateSignalWindow then (true, m)
    else dedupRecord k m now
  | none => dedupRecord k m now
where
  /-- The fall-through of `isDuplicateSignal`: record the timestamp,
  clean up, report "not a duplicate". -/
  dedupRecord (k : String) (m : DedupMap) (now : Nat) : Bool × DedupMap :=
    (false, dedupCleanup (dedupSet m k now) now)

/-- JS truthiness of an optional string value (absent, or present and
non-empty). -/
def strTruthy : Option String → Bool
  | none => false
  | some s => s != ""

/-- JS truthiness of an optional number value. -/
def natTruthy : Option Nat → Bool
  | none => false
  | some n => n != 0

/-- The in-memory credential state of the Token Lifecycle Manager:
`upstoxAccessToken`, `upstoxRefreshToken`, `tokenExpiryTime`
(src/server.js lines 32-34). -/
structure TokenState where
  accessToken : Option String
  refreshToken : Option String
  expiry : Nat
deriving DecidableEq, Repr

/-- `ensureValidAccessToken` (src/server.js lines 283-323).  The
outcome of the single refresh-token HTTP exchange is supplied as
`refreshResult`: `some (a, r)` is a successful response carrying the
new access/refresh pair, `none` is a thrown error.  Returns the
boolean result together with the resulting in-memory state.  The
staleness test is the source's `Date.now() >= tokenExpiryTime - 60000`
(Nat subtraction truncates at 0, matching the "always stale" behaviour
for very small expiry values). -/
def ensureValidAccessToken (st : TokenState) (now : Nat)
    (refreshResult : Option (String × String)) : Bool × TokenState :=
  if !(strTruthy st.accessToken) then (false, st)
  else if now ≥ st.expiry - 60000 then
    match refreshResult with
    | some (a, r) => (true, ⟨some a, some r, now + 23 * 60 * 60 * 1000⟩)
    | none => (false, st)
  else (true, st)

/-- The configuration surface used by the webhook handler:
`WEBHOOK_SECRET`, `MAX_TOTAL_POSITIONS`, `MAX_QUANTITY_PER_TRADE`,
`MAX_CAPITAL_PER_TRADE` (src/server.js lines 108-110, 530). -/
structure Config where
  secret : String
  maxTotalPositions : Nat
  maxQuantityPerTrade : Nat
  maxCapitalPerTrade : Nat
deriving DecidableEq, Repr

/-- The JSON body of a webhook request (src/server.js line 528):
`{token, symbol, action, quantity, price?}`, every field possibly
absent. -/
structure Payload where
  token : Option String
  symbol : Option String
  action : Option String
  quantity : Option Nat
  price : Option Nat
deriving DecidableEq, Repr

/-- Outcomes of the outbound calls made while processing one webhook
signal: the boolean result of `ensureValidAccessToken`, the positions
returned by `getPositions` (`[]` on fetch error, as in the source),
the `equity.available_margin` when `getFunds` succeeds (`none` models
the `null` failure result), and the broker order id when the
order-placement call succeeds (`none` models a thrown error). -/
structure World where
  tokenValid : Bool
  positions : List Position
  availableMargin : Option Nat
  orderId : Option String
deriving DecidableEq, Repr

/-- The `status` column written by `logWebhookOrder`
(src/server.js lines 497-521). -/
inductive LogStatus
  | success
  | skipped
  | failed
deriving DecidableEq, Repr

/-- The distinct `reason` values written by `logWebhookOrder` calls in
the webhook handler, identified by tag (several of the source's reason
strings interpolate the offending numbers; the tag captures which
branch produced the entry). -/
inductive LogReason
  | duplicateSignal
  | noValidToken
  | instrumentNotFound
  | longPosition
  | shortPosition
  | maxPositions
  | quantityExceeds
  | fundsUnverified
  | capitalLimit
  | insufficientMargin
  | orderError
deriving DecidableEq, Repr

/-- The static part of each reason string as written by the source
(for the reasons whose string interpolates numbers, the fixed template
text). -/
def reasonString : LogReason → String
  | .duplicateSignal => "duplicate signal"
  | .noValidToken => "no valid access token"
  | .instrumentNotFound => "instrument token not found"
  | .longPosition => "already have long position"
  | .shortPosition => "already have short position"
  | .maxPositions => "max total positions reached"
  | .quantityExceeds => "quantity exceeds max limit"
  | .fundsUnverified => "could not verify funds"
  | .capitalLimit => "required capital exceeds max limit"
  | .insufficientMargin => "insufficient margin"
  | .orderError => "order placement error"

/-- Observable side effects of one webhook invocation, in program
order: an order-log insert (`logWebhookOrder`), the
`ensureValidAccessToken` call, the `getPositions` call, the `getFunds`
call, and the order-placement POST. -/
inductive Effect
  | logWrite (status : LogStatus) (reason : Option LogReason)
  | tokenCheck
  | positionsFetch
  | fundsFetch
  | orderPlace
deriving DecidableEq, Repr

/-- Order placement and its logging (src/server.js lines 622-651): on
success, a success log entry with the broker order id and `null`
reason; on a thrown error the catch block logs a failed entry. -/
def orderStage (w : World) : List Effect :=
  match w.orderId with
  | some _ => [.orderPlace, .logWrite .success none]
  | none => [.orderPlace, .logWrite .failed (some .orderError)]

/-- The capital and margin checks (src/server.js lines 606-620):
`price = data.price || 0`; both checks run only when the price is
strictly positive. -/
def capitalStage (cfg : Config) (qty : Nat) (priceField : Option Nat)
    (margin : Nat) (w : World) : List Effect :=
  let price := priceField.getD 0
  if price > 0 then
    let requiredCapital := price * qty
    if requiredCapital > cfg.maxCapitalPerTrade then
      [.logWrite .skipped (some .capitalLimit)]
    else if requiredCapital > margin then
      [.logWrite .skipped (some .insufficientMargin)]
    else orderStage w
  else orderStage w

/-- The funds fetch and its failure handling (src/server.js lines
596-604). -/
def fundsStage (cfg : Config) (qty : Nat) (priceField : Option Nat)
    (w : World) : List Effect :=
  .fundsFetch ::
    match w.availableMargin with
    | none => [.logWrite .failed (some .fundsUnverified)]
    | some margin => capitalStage cfg qty priceField margin w

/-- The per-trade quantity ceiling (src/server.js lines 589-593). -/
def qtyStage (cfg : Config) (qty : Nat) (priceField : Option Nat)
    (w : World) : List Effect :=
  if qty > cfg.maxQuantityPerTrade then
    [.logWrite .skipped (some .quantityExceeds)]
  else fundsStage cfg qty priceField w

/-- The max-total-positions ceiling (src/server.js lines 581-587):
skip when the count of nonzero-quantity positions reaches the ceiling
and `existingPosition` is falsy. -/
def countStage (cfg : Config) (qty : Nat) (priceField : Option Nat)
    (w : World) (existing : Option Position) : List Effect :=
  let active := w.positions.filter (fun p => p.quantity != 0)
  if cfg.maxTotalPositions ≤ active.length ∧ existing = none then
    [.logWrite .skipped (some .maxPositions)]
  else qtyStage cfg qty priceField w

/-- The directional-conflict check (src/server.js lines 567-579):
reject a BUY against an existing strictly positive position and a SELL
against a strictly negative one; any other action falls through. -/
def directionalStage (cfg : Config) (action : String) (qty : Nat)
    (priceField : Option Nat) (w : World) (existing : Option Position) :
    List Effect :=
  if action = "BUY" then
    match existing with
    | some pos =>
      if pos.quantity > 0 then [.logWrite .skipped (some .longPosition)]
      else countStage cfg qty priceField w existing
    | none => countStage cfg qty priceField w existing
  else if action = "SELL" then
    match existing with
    | some pos =>
      if pos.quantity < 0 then [.logWrite .skipped (some .shortPosition)]
      else countStage cfg qty priceField w existing
    | none => countStage cfg qty priceField w existing
  else countStage cfg qty priceField w existing

/-- The position fetch and the checks that depend on it
(src/server.js lines 563-565): the trading symbol for matching is
`data.symbol.split(":")[1]`. -/
def positionsStage (cfg : Config) (symbol action : String) (qty : Nat)
    (priceField : Option Nat) (w : World) : List Effect :=
  let existing := findExisting w.positions (tradingSymbolOf symbol)
  .positionsFetch :: directionalStage cfg action qty priceField w existing

/-- The background continuation of the webhook handler, run after the
"received" acknowledgment (src/server.js lines 550-651): token check,
instrument lookup, then the position-dependent pipeline. -/
def background (cfg : Config) (m : SymMap) (symbol action : String)
    (qty : Nat) (priceField : Option Nat) (w : World) : List Effect :=
  .tokenCheck ::
    if w.tokenValid then
      match getInstrumentToken m symbol with
      | none => [.logWrite .failed (some .instrumentNotFound)]
      | some _ => positionsStage cfg symbol action qty priceField w
    else [.logWrite .failed (some .noValidToken)]

/-- The HTTP response of `POST /webhook/tradingview`: 401, 400,
200 `{status: skipped, reason: duplicate signal}`, or
200 `{status: received}`. -/
inductive Resp
  | unauthorized
  | badRequest
  | skippedDuplicate
  | received
deriving DecidableEq, Repr

/-- The full observable outcome of one webhook invocation: the HTTP
response, the ordered effect trace, and the duplicate tracker after
the call. -/
structure HandlerResult where
  resp : Resp
  effects : List Effect
  dedup : DedupMap
deriving DecidableEq, Repr

/-- The token gate of the handler (src/server.js line 530):
`!data.token || data.token !== process.env.WEBHOOK_SECRET` responds
401, so the request is authorized exactly when the payload token is
truthy and equal to the configured secret. -/
def authorized (cfg : Config) (p : Payload) : Bool :=
  strTruthy p.token && (p.token == some cfg.secret)

/-- The shape gate of the handler (src/server.js line 534): symbol,
action and quantity must all be truthy. -/
def shapeValid (p : Payload) : Bool :=
  strTruthy p.symbol && strTruthy p.action && natTruthy p.quantity

/-- The handler of `POST /webhook/tradingview` (src/server.js lines
526-652): authentication, shape validation, duplicate suppression
(with its skip log), then the acknowledgment followed by the
background pipeline. -/
def webhookHandler (cfg : Config) (m : SymMap) (p : Payload) (w : World)
    (dedup : DedupMap) (now : Nat) : HandlerResult :=
  if !(authorized cfg p) then ⟨.unauthorized, [], dedup⟩
  else if !(shapeValid p) then ⟨.badRequest, [], dedup⟩
  else
    let symbol := p.symbol.getD ""
    let action := p.action.getD ""
    let qty := p.quantity.getD 0
    let r := isDuplicateSignal symbol action dedup now
    if r.1 then
      ⟨.skippedDuplicate, [.logWrite .skipped (some .duplicateSignal)], r.2⟩
    else
      ⟨.received, background cfg m symbol action qty p.price w, r.2⟩

/-! Helper lemmas. -/

/-- Filtering by a predicate the found element satisfies preserves the
result of `find?`. -/
theorem find?_filter_of_pos {α : Type} (p q : α → Bool) (l : List α) (a : α)
    (h : l.find? p = some a) (hq : q a = true) :
    (l.filter q).find? p = some a := by
  induction l with
  | nil => simp at h
  | cons x xs ih =>
    by_cases hp : p x = true
    · rw [List.find?_cons_of_pos _ hp] at h
      obtain rfl : x = a := by simpa using h
      rw [List.filter_cons_of_pos hq, List.find?_cons_of_pos _ hp]
    · rw [List.find?_cons_of_neg _ hp] at h
      by_cases hqx : q x = true
      · rw [List.filter_cons_of_pos hqx, List.find?_cons_of_neg _ hp]
        exact ih h
      · rw [List.filter_cons_of_neg hqx]
        exact ih h

/-- After an in-place `Map.set` update, `find?` for the key returns
the fresh entry. -/
theorem find?_map_update (m : DedupMap) (k : String) (t : Nat)
    (hf : (m.find? (fun e => e.1 == k)).isSome = true) :
    (m.map (fun e => if e.1 == k then (k, t) else e)).find? (fun e => e.1 == k) =
      some (k, t) := by
  induction m with
  | nil => simp at hf
  | cons e m ih =>
    by_cases he : (e.1 == k) = true
    · rw [List.map_cons, if_pos he, List.find?_cons_of_pos _ (by simp)]
    · rw [List.map_cons, if_neg he, List.find?_cons_of_neg _ (by simp [he])]
      apply ih
      rw [List.find?_cons_of_neg _ (by simp [he])] at hf
      exact hf

/-- `find?` skips a prefix in which nothing matches. -/
theorem find?_append_of_none {α : Type} (p : α → Bool) (l1 l2 : List α)
    (h : l1.find? p = none) : (l1 ++ l2).find? p = l2.find? p := by
  induction l1 with
  | nil => rfl
  | cons x xs ih =>
    by_cases hp : p x = true
    · rw [List.find?_cons_of_pos _ hp] at h; simp at h
    · rw [List.find?_cons_of_neg _ hp] at h
      rw [List.cons_append, List.find?_cons_of_neg _ hp]
      exact ih h

/-- Looking up the key just written by `dedupSet` yields the written
timestamp. -/
theorem dedupLookup_dedupSet (m : DedupMap) (k : String) (t : Nat) :
    dedupLookup (dedupSet m k t) k = some t := by
  unfold dedupSet dedupLookup
  by_cases hf : (m.find? (fun e => e.1 == k)).isSome = true
  · rw [if_pos hf, find?_map_update m k t hf]; rfl
  · rw [if_neg hf]
    have h0 : m.find? (fun e => e.1 == k) = none := by
      cases hfe : m.find? (fun e => e.1 == k) with
      | none => rfl
      | some e => rw [hfe] at hf; simp at hf
    rw [find?_append_of_none _ _ _ h0, List.find?_cons_of_pos _ (by simp)]; rfl

/-- The opportunistic cleanup keeps an entry that is still inside the
window, and keeps it first for its key. -/
theorem dedupLookup_dedupCleanup (m : DedupMap) (now : Nat) (k : String) (t : Nat)
    (h : dedupLookup m k = some t) (hfresh : ¬ (now - t > duplicateSignalWindow)) :
    dedupLookup (dedupCleanup m now) k = some t := by
  unfold dedupCleanup
  by_cases hlen : m.length > 100
  · rw [if_pos hlen]
    unfold dedupLookup at h ⊢
    obtain ⟨e, he, he2⟩ : ∃ e, m.find? (fun e => e.1 == k) = some e ∧ e.2 = t := by
      cases hf : m.find? (fun e => e.1 == k) with
      | none => rw [hf] at h; simp at h
      | some e => rw [hf] at h; exact ⟨e, rfl, by simpa using h⟩
    rw [find?_filter_of_pos _ _ _ _ he (by simp [he2, hfresh])]
    simp [he2]
  · rw [if_neg hlen]; exact h

/-- When `isDuplicateSignal` reported "not a duplicate", the tracker
it returns maps the signal's key to the current timestamp. -/
theorem isDuplicateSignal_false_lookup (symbol action : String) (m : DedupMap) (now : Nat)
    (h : (isDuplicateSignal symbol action m now).1 = false) :
    dedupLookup (isDuplicateSignal symbol action m now).2 (dedupKey symbol action) =
      some now := by
  unfold isDuplicateSignal
  cases hl : dedupLookup m (dedupKey symbol action) with
  | none =>
    simp only [hl]
    unfold isDuplicateSignal.dedupRecord
    exact dedupLookup_dedupCleanup _ _ _ _ (dedupLookup_dedupSet m _ now)
      (by simp [duplicateSignalWindow])
  | some lastTime =>
    simp only [hl]
    by_cases hc : lastTime ≠ 0 ∧ now - lastTime < duplicateSignalWindow
    · exfalso
      unfold isDuplicateSignal at h
      simp only [hl] at h
      rw [if_pos hc] at h
      simp at h
    · rw [if_neg hc]
      unfold isDuplicateSignal.dedupRecord
      exact dedupLookup_dedupCleanup _ _ _ _ (dedupLookup_dedupSet m _ now)
        (by simp [duplicateSignalWindow])

/-- A signal whose key maps to a nonzero timestamp within the window
is reported as a duplicate and the tracker is left unchanged. -/
theorem isDuplicateSignal_true (symbol action : String) (m : DedupMap) (now t : Nat)
    (hl : dedupLookup m (dedupKey symbol action) = some t)
    (ht : t ≠ 0) (hw : now - t < duplicateSignalWindow) :
    isDuplicateSignal symbol action m now = (true, m) := by
  unfold isDuplicateSignal
  simp only [hl]
  rw [if_pos ⟨ht, hw⟩]

/-- The handler's resulting tracker is the one `isDuplicateSignal`
produced, for any authorized, shape-valid request. -/
theorem webhookHandler_dedup (cfg : Config) (m : SymMap) (p : Payload) (w : World)
    (d : DedupMap) (now : Nat)
    (ha : authorized cfg p = true) (hs : shapeValid p = true) :
    (webhookHandler cfg m p w d now).dedup =
      (isDuplicateSignal (p.symbol.getD "") (p.action.getD "") d now).2 := by
  simp only [webhookHandler, ha, hs, Bool.not_true, Bool.false_eq_true, if_false]
  split <;> rfl

/-- The handler's pass-through outcome: authorized, shape-valid, not a
duplicate. -/
theorem webhookHandler_received (cfg : Config) (m : SymMap) (p : Payload) (w : World)
    (d : DedupMap) (now : Nat)
    (ha : authorized cfg p = true) (hs : shapeValid p = true)
    (hnd : (isDuplicateSignal (p.symbol.getD "") (p.action.getD "") d now).1 = false) :
    webhookHandler cfg m p w d now =
      ⟨.received,
        background cfg m (p.symbol.getD "") (p.action.getD "") (p.quantity.getD 0)
          p.price w,
        (isDuplicateSignal (p.symbol.getD "") (p.action.getD "") d now).2⟩ := by
  simp only [webhookHandler, ha, hs, Bool.not_true, Bool.false_eq_true, if_false, hnd]

/-- The handler's duplicate outcome. -/
theorem webhookHandler_duplicate (cfg : Config) (m : SymMap) (p : Payload) (w : World)
    (d : DedupMap) (now : Nat)
    (ha : authorized cfg p = true) (hs : shapeValid p = true)
    (hd : (isDuplicateSignal (p.symbol.getD "") (p.action.getD "") d now).1 = true) :
    webhookHandler cfg m p w d now =
      ⟨.skippedDuplicate, [.logWrite .skipped (some .duplicateSignal)],
        (isDuplicateSignal (p.symbol.getD "") (p.action.getD "") d now).2⟩ := by
  simp only [webhookHandler, ha, hs, Bool.not_true, Bool.false_eq_true, if_false, hd,
    if_true]

/-- `orderStage` writes only success or failed log entries, never a
skip. -/
theorem skip_notin_orderStage (w : World) (r : LogReason) :
    Effect.logWrite .skipped (some r) ∉ orderStage w := by
  unfold orderStage
  cases w.orderId <;> simp

/-- Skip reasons reachable from the capital check onward. -/
theorem skip_capitalStage (cfg : Config) (qty : Nat) (pf : Option Nat) (margin : Nat)
    (w : World) (r : LogReason)
    (h : Effect.logWrite .skipped (some r) ∈ capitalStage cfg qty pf margin w) :
    r = .capitalLimit ∨ r = .insufficientMargin := by
  simp only [capitalStage] at h
  by_cases h1 : (pf.getD 0) > 0
  · rw [if_pos h1] at h
    by_cases h2 : (pf.getD 0) * qty > cfg.maxCapitalPerTrade
    · rw [if_pos h2] at h
      simp at h
      exact Or.inl h
    · rw [if_neg h2] at h
      by_cases h3 : (pf.getD 0) * qty > margin
      · rw [if_pos h3] at h
        simp at h
        exact Or.inr h
      · rw [if_neg h3] at h
        exact absurd h (skip_notin_orderStage w r)
  · rw [if_neg h1] at h
    exact absurd h (skip_notin_orderStage w r)

/-- Skip reasons reachable from the funds fetch onward. -/
theorem skip_fundsStage (cfg : Config) (qty : Nat) (pf : Option Nat) (w : World)
    (r : LogReason)
    (h : Effect.logWrite .skipped (some r) ∈ fundsStage cfg qty pf w) :
    r = .capitalLimit ∨ r = .insufficientMargin := by
  simp only [fundsStage, List.mem_cons] at h
  rcases h with h | h
  · simp at h
  · cases hm : w.availableMargin with
    | none => rw [hm] at h; simp at h
    | some margin => rw [hm] at h; exact skip_capitalStage cfg qty pf margin w r h

/-- Skip reasons reachable from the quantity check onward. -/
theorem skip_qtyStage (cfg : Config) (qty : Nat) (pf : Option Nat) (w : World)
    (r : LogReason)
    (h : Effect.logWrite .skipped (some r) ∈ qtyStage cfg qty pf w) :
    r = .quantityExceeds ∨ r = .capitalLimit ∨ r = .insufficientMargin := by
  simp only [qtyStage] at h
  by_cases h1 : qty > cfg.maxQuantityPerTrade
  · rw [if_pos h1] at h
    simp at h
    exact Or.inl h
  · rw [if_neg h1] at h
    exact Or.inr (skip_fundsStage cfg qty pf w r h)

/-- Skip reasons reachable from the position-count check onward. -/
theorem skip_countStage (cfg : Config) (qty : Nat) (pf : Option Nat) (w : World)
    (ex : Option Position) (r : LogReason)
    (h : Effect.logWrite .skipped (some r) ∈ countStage cfg qty pf w ex) :
    r = .maxPositions ∨ r = .quantityExceeds ∨ r = .capitalLimit ∨
      r = .insufficientMargin := by
  simp only [countStage] at h
  by_cases h1 : cfg.maxTotalPositions ≤
      (w.positions.filter (fun p => p.quantity != 0)).length ∧ ex = none
  · rw [if_pos h1] at h
    simp at h
    exact Or.inl h
  · rw [if_neg h1] at h
    exact Or.inr (skip_qtyStage cfg qty pf w r h)

/-- With the quantity over the ceiling, the funds fetch never occurs
from the quantity check onward. -/
theorem fundsFetch_notin_qtyStage (cfg : Config) (qty : Nat) (pf : Option Nat)
    (w : World) (h : qty > cfg.maxQuantityPerTrade) :
    Effect.fundsFetch ∉ qtyStage cfg qty pf w := by
  simp [qtyStage, h]

/-- With the quantity over the ceiling, the funds fetch never occurs
from the position-count check onward. -/
theorem fundsFetch_notin_countStage (cfg : Config) (qty : Nat) (pf : Option Nat)
    (w : World) (ex : Option Position) (h : qty > cfg.maxQuantityPerTrade) :
    Effect.fundsFetch ∉ countStage cfg qty pf w ex := by
  simp only [countStage]
  by_cases h1 : cfg.maxTotalPositions ≤
      (w.positions.filter (fun p => p.quantity != 0)).length ∧ ex = none
  · rw [if_pos h1]; simp
  · rw [if_neg h1]; exact fundsFetch_notin_qtyStage cfg qty pf w h

/-- With the quantity over the ceiling, the funds fetch never occurs
from the directional check onward. -/
theorem fundsFetch_notin_directionalStage (cfg : Config) (action : String) (qty : Nat)
    (pf : Option Nat) (w : World) (ex : Option Position)
    (h : qty > cfg.maxQuantityPerTrade) :
    Effect.fundsFetch ∉ directionalStage cfg action qty pf w ex := by
  simp only [directionalStage]
  by_cases hb : action = "BUY"
  · rw [if_pos hb]
    cases ex with
    | none => exact fundsFetch_notin_countStage cfg qty pf w none h
    | some pos =>
      dsimp only
      by_cases hq : pos.quantity > 0
      · rw [if_pos hq]; simp
      · rw [if_neg hq]; exact fundsFetch_notin_countStage cfg qty pf w _ h
  · rw [if_neg hb]
    by_cases hsl : action = "SELL"
    · rw [if_pos hsl]
      cases ex with
      | none => exact fundsFetch_notin_countStage cfg qty pf w none h
      | some pos =>
        dsimp only
        by_cases hq : pos.quantity < 0
        · rw [if_pos hq]; simp
        · rw [if_neg hq]; exact fundsFetch_notin_countStage cfg qty pf w _ h
    · rw [if_neg hsl]; exact fundsFetch_notin_countStage cfg qty pf w ex h

/-- The one-step unfolding of `splitOnChar`. -/
theorem splitOnChar_cons (c x : Char) (xs : List Char) :
    splitOnChar c (x :: xs) =
      match splitOnChar c xs with
      | [] => [[]]
      | h :: t => if x = c then [] :: h :: t else (x :: h) :: t := rfl

/-- `splitOnChar` always yields at least one part. -/
theorem splitOnChar_ne_nil (c : Char) (l : List Char) : splitOnChar c l ≠ [] := by
  induction l with
  | nil => simp [splitOnChar]
  | cons x xs ih =>
    rw [splitOnChar_cons]
    rcases hs : splitOnChar c xs with _ | ⟨hh, tt⟩
    · exact absurd hs ih
    · dsimp only
      split <;> simp

/-- Splitting a list without the separator yields that single part. -/
theorem splitOnChar_of_not_mem (c : Char) (l : List Char) (h : c ∉ l) :
    splitOnChar c l = [l] := by
  induction l with
  | nil => rfl
  | cons x xs ih =>
    have hx : x ≠ c := fun he => h (he ▸ List.mem_cons_self x xs)
    have hxs : c ∉ xs := fun hm => h (List.mem_cons_of_mem _ hm)
    rw [splitOnChar_cons, ih hxs]
    dsimp only
    rw [if_neg hx]

/-- Splitting around the first separator occurrence. -/
theorem splitOnChar_append (c : Char) (l1 l2 : List Char) (h : c ∉ l1) :
    splitOnChar c (l1 ++ c :: l2) = l1 :: splitOnChar c l2 := by
  induction l1 with
  | nil =>
    simp only [List.nil_append]
    rw [splitOnChar_cons]
    rcases hs : splitOnChar c l2 with _ | ⟨hh, tt⟩
    · exact absurd hs (splitOnChar_ne_nil c l2)
    · dsimp only
      rw [if_pos rfl]
  | cons x xs ih =>
    have hx : x ≠ c := fun he => h (he ▸ List.mem_cons_self x xs)
    have hxs : c ∉ xs := fun hm => h (List.mem_cons_of_mem _ hm)
    simp only [List.cons_append]
    rw [splitOnChar_cons, ih hxs]
    dsimp only
    rw [if_neg hx]

/-- A symbol without ":" has no second split part, so the position
trading symbol is JS `undefined`. -/
theorem tradingSymbolOf_no_colon (sym : String) (h : ':' ∉ sym.data) :
    tradingSymbolOf sym = none := by
  unfold tradingSymbolOf jsSplitColon
  rw [splitOnChar_of_not_mem ':' sym.data h]
  rfl

/-- With a JS-`undefined` trading symbol, no position ever matches. -/
theorem findExisting_none (positions : List Position) :
    findExisting positions none = none := by
  unfold findExisting
  induction positions with
  | nil => rfl
  | cons p l ih => rw [List.find?_cons_of_neg _ (by simp)]; exact ih

/-- With the quantity over the ceiling, the funds fetch never occurs
anywhere in the background pipeline. -/
theorem fundsFetch_notin_background (cfg : Config) (m : SymMap) (symbol action : String)
    (qty : Nat) (pf : Option Nat) (w : World) (h : qty > cfg.maxQuantityPerTrade) :
    Effect.fundsFetch ∉ background cfg m symbol action qty pf w := by
  unfold background
  intro hmem
  rw [List.mem_cons] at hmem
  rcases hmem with h1 | hmem
  · exact Effect.noConfusion h1
  · cases htv : w.tokenValid with
    | false => rw [htv] at hmem; simp at hmem
    | true =>
      rw [htv] at hmem
      simp only [if_true] at hmem
      cases hi : getInstrumentToken m symbol with
      | none => rw [hi] at hmem; simp at hmem
      | some tok =>
        rw [hi] at hmem
        dsimp only at hmem
        unfold positionsStage at hmem
        rw [List.mem_cons] at hmem
        rcases hmem with h1 | hmem
        · exact Effect.noConfusion h1
        · exact fundsFetch_notin_directionalStage cfg action qty pf w _ h hmem

/-! Claim theorems. -/

/-- C1: a webhook request whose payload token is absent or differs
from the configured secret is answered 401 with no observable effect:
no order-log write, no duplicate-tracker update, and no position
fetch, funds fetch, token check/refresh, or order placement. -/
theorem webhook_bad_token_rejected (cfg : Config) (m : SymMap) (p : Payload)
    (w : World) (d : DedupMap) (now : Nat)
    (h : p.token = none ∨ p.token ≠ some cfg.secret) :
    webhookHandler cfg m p w d now = ⟨.unauthorized, [], d⟩ := by
  have hA : authorized cfg p = false := by
    rcases h with h | h
    · simp [authorized, h, strTruthy]
    · unfold authorized
      cases ht : p.token with
      | none => simp [strTruthy]
      | some s =>
        rw [ht] at h
        have hb : (some s == some cfg.secret) = false := by
          simp only [beq_eq_false_iff_ne]
          exact h
        simp [hb]
  simp [webhookHandler, hA]

/-- C1 witness: a concrete rejected request. -/
theorem webhook_bad_token_rejected_witness :
    (some "wrong" = none ∨ some "wrong" ≠ some "s3cret") ∧
      webhookHandler ⟨"s3cret", 5, 100, 10000⟩ emptySymMap
          ⟨some "wrong", some "NSE:SBIN", some "BUY", some 1, none⟩
          ⟨true, [], none, none⟩ [] 5 =
        ⟨.unauthorized, [], []⟩ :=
  ⟨Or.inr (by decide),
    webhook_bad_token_rejected ⟨"s3cret", 5, 100, 10000⟩ emptySymMap
      ⟨some "wrong", some "NSE:SBIN", some "BUY", some 1, none⟩
      ⟨true, [], none, none⟩ [] 5 (Or.inr (by decide))⟩

/-- C7: a signal whose quantity strictly exceeds
MAX_QUANTITY_PER_TRADE never triggers the funds-and-margin fetch, and
when it reaches the quantity check it is skipped there with the
quantity-exceeds reason. -/
theorem quantity_ceiling_blocks_funds (cfg : Config) (m : SymMap) (p : Payload)
    (w : World) (d : DedupMap) (now : Nat) (q : Nat)
    (hq : p.quantity = some q) (hgt : q > cfg.maxQuantityPerTrade) :
    Effect.fundsFetch ∉ (webhookHandler cfg m p w d now).effects ∧
      qtyStage cfg q p.price w = [.logWrite .skipped (some .quantityExceeds)] := by
  constructor
  · by_cases hA : authorized cfg p = true
    · by_cases hS : shapeValid p = true
      · by_cases hD :
            (isDuplicateSignal (p.symbol.getD "") (p.action.getD "") d now).1 = true
        · rw [webhookHandler_duplicate cfg m p w d now hA hS hD]
          simp
        · have hD' :
              (isDuplicateSignal (p.symbol.getD "") (p.action.getD "") d now).1 =
                false := by
            revert hD
            cases (isDuplicateSignal (p.symbol.getD "") (p.action.getD "") d now).1 <;>
              simp
          rw [webhookHandler_received cfg m p w d now hA hS hD']
          have hq' : p.quantity.getD 0 = q := by rw [hq]; rfl
          rw [hq']
          exact fundsFetch_notin_background cfg m _ _ q p.price w hgt
      · have hS' : shapeValid p = false := by
          revert hS; cases shapeValid p <;> simp
        simp [webhookHandler, hA, hS']
    · have hA' : authorized cfg p = false := by
        revert hA; cases authorized cfg p <;> simp
      simp [webhookHandler, hA']
  · simp [qtyStage, hgt]

/-- C7 witness: quantity 101 against a ceiling of 100. -/
theorem quantity_ceiling_blocks_funds_witness :
    (101 > 100) ∧
      (Effect.fundsFetch ∉
          (webhookHandler ⟨"s", 5, 100, 10000⟩ emptySymMap
              ⟨some "s", some "NSE:SBIN", some "BUY", some 101, none⟩
              ⟨true, [], some 100000, some "oid"⟩ [] 5).effects ∧
        qtyStage ⟨"s", 5, 100, 10000⟩ 101 none ⟨true, [], some 100000, some "oid"⟩ =
          [.logWrite .skipped (some .quantityExceeds)]) :=
  ⟨by decide,
    quantity_ceiling_blocks_funds ⟨"s", 5, 100, 10000⟩ emptySymMap
      ⟨some "s", some "NSE:SBIN", some "BUY", some 101, none⟩
      ⟨true, [], some 100000, some "oid"⟩ [] 5 101 rfl (by decide)⟩

/-- C8: at the capital check, a strictly positive price whose value
price × quantity exceeds MAX_CAPITAL_PER_TRADE yields a capital-limit
skip with no order placed, while a signal with no price (or price 0)
is never rejected by the capital-ceiling or margin checks. -/
theorem capital_ceiling_checks (cfg : Config) (qty : Nat) (pf : Option Nat)
    (margin : Nat) (w : World) :
    (∀ pr : Nat, pf = some pr → 0 < pr → pr * qty > cfg.maxCapitalPerTrade →
      capitalStage cfg qty pf margin w =
          [.logWrite .skipped (some .capitalLimit)] ∧
        Effect.orderPlace ∉ capitalStage cfg qty pf margin w) ∧
    ((pf = none ∨ pf = some 0) →
      Effect.logWrite .skipped (some .capitalLimit) ∉
          capitalStage cfg qty pf margin w ∧
        Effect.logWrite .skipped (some .insufficientMargin) ∉
          capitalStage cfg qty pf margin w) := by
  constructor
  · intro pr hpf hpos hcap
    subst hpf
    have h1 : ((some pr : Option Nat).getD 0) > 0 := by simpa using hpos
    have h2 : ((some pr : Option Nat).getD 0) * qty > cfg.maxCapitalPerTrade := by
      simpa using hcap
    constructor
    · simp only [capitalStage]
      rw [if_pos h1, if_pos h2]
    · simp only [capitalStage]
      rw [if_pos h1, if_pos h2]
      simp
  · intro hp
    have h0 : (pf.getD 0) = 0 := by rcases hp with h | h <;> simp [h]
    have h1 : ¬ ((pf.getD 0) > 0) := by simp [h0]
    constructor <;>
      (simp only [capitalStage]; rw [if_neg h1]; exact skip_notin_orderStage w _)

/-- C8 witness: price 200, quantity 60 against a capital ceiling of
10000 (value 12000). -/
theorem capital_ceiling_checks_witness :
    (200 * 60 > 10000) ∧
      capitalStage ⟨"s", 5, 100, 10000⟩ 60 (some 200) 100000
          ⟨true, [], some 100000, some "oid"⟩ =
        [.logWrite .skipped (some .capitalLimit)] :=
  ⟨by decide,
    ((capital_ceiling_checks ⟨"s", 5, 100, 10000⟩ 60 (some 200) 100000
        ⟨true, [], some 100000, some "oid"⟩).1 200 rfl (by decide) (by decide)).1⟩

/-- C9: `ensureValidAccessToken` returns true exactly when an access
token is present and either the current time is not yet within 60
seconds of the recorded expiry, or it is and the single refresh
exchange succeeded; with no token present, or on a failed refresh, it
returns false and leaves the in-memory access token, refresh token,
and expiry unchanged; a successful refresh installs the returned pair
and recomputes expiry as now plus 23 hours. -/
theorem ensure_valid_token_contract (st : TokenState) (now : Nat)
    (r : Option (String × String)) :
    ((ensureValidAccessToken st now r).1 = true ↔
       strTruthy st.accessToken = true ∧
         (now < st.expiry - 60000 ∨ (now ≥ st.expiry - 60000 ∧ r ≠ none))) ∧
    (strTruthy st.accessToken = false →
       ensureValidAccessToken st now r = (false, st)) ∧
    (strTruthy st.accessToken = true → now ≥ st.expiry - 60000 → r = none →
       ensureValidAccessToken st now r = (false, st)) ∧
    (∀ a b, strTruthy st.accessToken = true → now ≥ st.expiry - 60000 →
       r = some (a, b) →
       ensureValidAccessToken st now r =
         (true, ⟨some a, some b, now + 23 * 60 * 60 * 1000⟩)) := by
  refine ⟨?_, ?_, ?_, ?_⟩
  · unfold ensureValidAccessToken
    by_cases ht : strTruthy st.accessToken = true
    · simp only [ht, Bool.not_true, Bool.false_eq_true, if_false]
      by_cases hstale : now ≥ st.expiry - 60000
      · rw [if_pos hstale]
        cases r with
        | none =>
          simp
          omega
        | some ab =>
          constructor
          · intro _; exact ⟨trivial, Or.inr ⟨hstale, by simp⟩⟩
          · intro _; rfl
      · rw [if_neg hstale]
        constructor
        · intro _; exact ⟨trivial, Or.inl (by omega)⟩
        · intro _; rfl
    · have ht' : strTruthy st.accessToken = false := by
        revert ht; cases strTruthy st.accessToken <;> simp
      simp [ht']
  · intro hf
    unfold ensureValidAccessToken
    rw [hf]
    simp
  · intro ht hstale hr
    unfold ensureValidAccessToken
    simp only [ht, Bool.not_true, Bool.false_eq_true, if_false, if_pos hstale, hr]
  · intro a b ht hstale hr
    unfold ensureValidAccessToken
    simp only [ht, Bool.not_true, Bool.false_eq_true, if_false, if_pos hstale, hr]

/-- C9 witness: a stale state with a failed refresh keeps the state
unchanged and reports false. -/
theorem ensure_valid_token_contract_witness :
    ensureValidAccessToken ⟨some "tok", some "ref", 1000000⟩ 999999 none =
      (false, ⟨some "tok", some "ref", 1000000⟩) :=
  (ensure_valid_token_contract ⟨some "tok", some "ref", 1000000⟩ 999999 none).2.2.1
    (by decide) (by decide) rfl

/-- C10: instrument lookup of an exchange-qualified symbol "X:S" and
of the bare symbol "S" agree, for any colon-free exchange prefix X and
colon-free trading symbol S. -/
theorem instrument_lookup_prefix_agnostic (m : SymMap) (x s : String)
    (hx : ':' ∉ x.data) (hs : ':' ∉ s.data) :
    getInstrumentToken m (x ++ ":" ++ s) = getInstrumentToken m s := by
  have hdata : (x ++ ":" ++ s).data = x.data ++ ':' :: s.data := by
    simp [String.data_append]
  unfold getInstrumentToken jsSplitColon
  rw [hdata, splitOnChar_append ':' x.data s.data hx,
      splitOnChar_of_not_mem ':' s.data hs]
  simp

/-- C10 witness: "NSE:SBIN" and "SBIN" resolve to the same instrument
key once SBIN is loaded. -/
theorem instrument_lookup_prefix_agnostic_witness :
    ((':' ∉ "NSE".data) ∧ (':' ∉ "SBIN".data)) ∧
      getInstrumentToken
          (fun t => if t = "SBIN" then some ⟨"SBIN", "NSE", "NSE_EQ|SBIN"⟩ else none)
          ("NSE" ++ ":" ++ "SBIN") =
        getInstrumentToken
          (fun t => if t = "SBIN" then some ⟨"SBIN", "NSE", "NSE_EQ|SBIN"⟩ else none)
          "SBIN" :=
  ⟨⟨by decide, by decide⟩,
    instrument_lookup_prefix_agnostic
      (fun t => if t = "SBIN" then some ⟨"SBIN", "NSE", "NSE_EQ|SBIN"⟩ else none)
      "NSE" "SBIN" (by decide) (by decide)⟩

/-- With no matched position, every action falls through the
directional check to the position-count check. -/
theorem directionalStage_none (cfg : Config) (a : String) (qty : Nat)
    (pf : Option Nat) (w : World) :
    directionalStage cfg a qty pf w none = countStage cfg qty pf w none := by
  unfold directionalStage
  by_cases hb : a = "BUY"
  · rw [if_pos hb]
  · rw [if_neg hb]
    by_cases hsl : a = "SELL"
    · rw [if_pos hsl]
    · rw [if_neg hsl]

/-- C3: with a fetched position entry matched for the signal's trading
symbol, a BUY against a strictly positive quantity is skipped with the
long-position reason and reaches no later risk check or order
placement; a SELL against that same positive position passes the
directional-conflict check (neither directional skip is logged); and
symmetrically a SELL against a strictly negative position is skipped
with the short-position reason. -/
theorem directional_conflict_checks (cfg : Config) (m : SymMap) (p : Payload)
    (w : World) (d : DedupMap) (now : Nat) (pos : Position)
    (ha : authorized cfg p = true) (hs : shapeValid p = true)
    (hnd : (isDuplicateSignal (p.symbol.getD "") (p.action.getD "") d now).1 = false)
    (htok : w.tokenValid = true)
    (hinst : (getInstrumentToken m (p.symbol.getD "")).isSome = true)
    (hfind : findExisting w.positions (tradingSymbolOf (p.symbol.getD "")) =
      some pos) :
    (p.action = some "BUY" → pos.quantity > 0 →
      (webhookHandler cfg m p w d now).effects =
        [.tokenCheck, .positionsFetch, .logWrite .skipped (some .longPosition)]) ∧
    (p.action = some "SELL" → pos.quantity > 0 →
      Effect.logWrite .skipped (some .longPosition) ∉
          (webhookHandler cfg m p w d now).effects ∧
        Effect.logWrite .skipped (some .shortPosition) ∉
          (webhookHandler cfg m p w d now).effects) ∧
    (p.action = some "SELL" → pos.quantity < 0 →
      (webhookHandler cfg m p w d now).effects =
        [.tokenCheck, .positionsFetch, .logWrite .skipped (some .shortPosition)]) := by
  obtain ⟨tok, htokk⟩ := Option.isSome_iff_exists.mp hinst
  have heff : (webhookHandler cfg m p w d now).effects =
      background cfg m (p.symbol.getD "") (p.action.getD "") (p.quantity.getD 0)
        p.price w := by
    rw [webhookHandler_received cfg m p w d now ha hs hnd]
  have hbg : background cfg m (p.symbol.getD "") (p.action.getD "")
        (p.quantity.getD 0) p.price w =
      .tokenCheck :: .positionsFetch ::
        directionalStage cfg (p.action.getD "") (p.quantity.getD 0) p.price w
          (some pos) := by
    unfold background
    rw [htok]
    simp only [if_true, htokk]
    unfold positionsStage
    rw [hfind]
  refine ⟨?_, ?_, ?_⟩
  · intro hact hq
    rw [heff, hbg]
    have hact' : p.action.getD "" = "BUY" := by rw [hact]; rfl
    rw [hact']
    unfold directionalStage
    rw [if_pos rfl]
    dsimp only
    rw [if_pos hq]
  · intro hact hq
    rw [heff, hbg]
    have hact' : p.action.getD "" = "SELL" := by rw [hact]; rfl
    rw [hact']
    unfold directionalStage
    rw [if_neg (by decide : ¬("SELL" = "BUY")), if_pos rfl]
    dsimp only
    rw [if_neg (by omega : ¬ pos.quantity < 0)]
    constructor
    · intro hmem
      simp only [List.mem_cons] at hmem
      rcases hmem with h1 | h1 | h1
      · exact Effect.noConfusion h1
      · exact Effect.noConfusion h1
      · rcases skip_countStage cfg (p.quantity.getD 0) p.price w (some pos) _ h1 with
          h2 | h2 | h2 | h2 <;> exact LogReason.noConfusion h2
    · intro hmem
      simp only [List.mem_cons] at hmem
      rcases hmem with h1 | h1 | h1
      · exact Effect.noConfusion h1
      · exact Effect.noConfusion h1
      · rcases skip_countStage cfg (p.quantity.getD 0) p.price w (some pos) _ h1 with
          h2 | h2 | h2 | h2 <;> exact LogReason.noConfusion h2
  · intro hact hq
    rw [heff, hbg]
    have hact' : p.action.getD "" = "SELL" := by rw [hact]; rfl
    rw [hact']
    unfold directionalStage
    rw [if_neg (by decide : ¬("SELL" = "BUY")), if_pos rfl]
    dsimp only
    rw [if_pos hq]

/-- C3 witness: a BUY against an existing +10 position is skipped with
the long-position reason. -/
theorem directional_conflict_checks_witness :
    (webhookHandler ⟨"s", 5, 100, 10000⟩
        (fun t => if t = "SBIN" then some ⟨"SBIN", "NSE", "NSE_EQ|SBIN"⟩ else none)
        ⟨some "s", some "NSE:SBIN", some "BUY", some 1, none⟩
        ⟨true, [⟨"SBIN", 10⟩], some 100000, some "oid"⟩ [] 5).effects =
      [.tokenCheck, .positionsFetch, .logWrite .skipped (some .longPosition)] :=
  ((directional_conflict_checks ⟨"s", 5, 100, 10000⟩
      (fun t => if t = "SBIN" then some ⟨"SBIN", "NSE", "NSE_EQ|SBIN"⟩ else none)
      ⟨some "s", some "NSE:SBIN", some "BUY", some 1, none⟩
      ⟨true, [⟨"SBIN", 10⟩], some 100000, some "oid"⟩ [] 5 ⟨"SBIN", 10⟩
      (by decide) (by decide) (by decide) rfl (by decide) (by decide)).1)
    rfl (by decide)

/-- Looking up a colon-free symbol consults the by-symbol map at the
symbol itself. -/
theorem getInstrumentToken_no_colon (m : SymMap) (sym : String) (h : ':' ∉ sym.data) :
    getInstrumentToken m sym =
      match m sym with
      | none => none
      | some inst => some inst.instrument_key := by
  unfold getInstrumentToken jsSplitColon
  rw [splitOnChar_of_not_mem ':' sym.data h]
  rfl

/-- C5: a signal whose symbol has no ":" separator matches no fetched
position: the directional-conflict check passes for it regardless of
the fetched positions, and it is never exempted from the
position-count ceiling as an existing position — the max-positions
skip occurs exactly when the nonzero-position count reaches the
ceiling. -/
theorem bare_symbol_position_checks (cfg : Config) (m : SymMap) (p : Payload)
    (w : World) (d : DedupMap) (now : Nat) (sym : String)
    (hsym : p.symbol = some sym) (hnc : ':' ∉ sym.data)
    (ha : authorized cfg p = true) (hs : shapeValid p = true)
    (hnd : (isDuplicateSignal (p.symbol.getD "") (p.action.getD "") d now).1 = false)
    (htok : w.tokenValid = true)
    (hinst : (m sym).isSome = true) :
    Effect.logWrite .skipped (some .longPosition) ∉
        (webhookHandler cfg m p w d now).effects ∧
      Effect.logWrite .skipped (some .shortPosition) ∉
        (webhookHandler cfg m p w d now).effects ∧
      (Effect.logWrite .skipped (some .maxPositions) ∈
          (webhookHandler cfg m p w d now).effects ↔
        cfg.maxTotalPositions ≤
          (w.positions.filter (fun q => q.quantity != 0)).length) := by
  obtain ⟨inst, hminst⟩ := Option.isSome_iff_exists.mp hinst
  have hgetD : p.symbol.getD "" = sym := by rw [hsym]; rfl
  have hlook : getInstrumentToken m sym = some inst.instrument_key := by
    rw [getInstrumentToken_no_colon m sym hnc, hminst]
  have hfe : findExisting w.positions (tradingSymbolOf sym) = none := by
    rw [tradingSymbolOf_no_colon sym hnc]
    exact findExisting_none w.positions
  have heff : (webhookHandler cfg m p w d now).effects =
      .tokenCheck :: .positionsFetch ::
        countStage cfg (p.quantity.getD 0) p.price w none := by
    rw [webhookHandler_received cfg m p w d now ha hs hnd]
    show background cfg m (p.symbol.getD "") (p.action.getD "") (p.quantity.getD 0)
        p.price w = _
    unfold background
    rw [htok, hgetD]
    simp only [if_true, hlook]
    unfold positionsStage
    simp only [hfe]
    rw [directionalStage_none]
  rw [heff]
  refine ⟨?_, ?_, ?_⟩
  · intro hmem
    simp only [List.mem_cons] at hmem
    rcases hmem with h1 | h1 | h1
    · exact Effect.noConfusion h1
    · exact Effect.noConfusion h1
    · rcases skip_countStage cfg (p.quantity.getD 0) p.price w none _ h1 with
        h2 | h2 | h2 | h2 <;> exact LogReason.noConfusion h2
  · intro hmem
    simp only [List.mem_cons] at hmem
    rcases hmem with h1 | h1 | h1
    · exact Effect.noConfusion h1
    · exact Effect.noConfusion h1
    · rcases skip_countStage cfg (p.quantity.getD 0) p.price w none _ h1 with
        h2 | h2 | h2 | h2 <;> exact LogReason.noConfusion h2
  · constructor
    · intro hmem
      simp only [List.mem_cons] at hmem
      rcases hmem with h1 | h1 | h1
      · exact Effect.noConfusion h1
      · exact Effect.noConfusion h1
      · by_cases hc : cfg.maxTotalPositions ≤
            (w.positions.filter (fun q => q.quantity != 0)).length
        · exact hc
        · exfalso
          simp only [countStage] at h1
          rw [if_neg (fun hand => hc hand.1)] at h1
          rcases skip_qtyStage cfg (p.quantity.getD 0) p.price w _ h1 with
            h2 | h2 | h2 <;> exact LogReason.noConfusion h2
    · intro hc
      simp only [List.mem_cons]
      right; right
      simp only [countStage]
      rw [if_pos ⟨hc, trivial⟩]
      exact List.mem_singleton.mpr rfl

/-- C5 witness: a bare-symbol BUY with a conflicting +10 long position
in the fetched list still passes the directional check and is not
exempted from the ceiling. -/
theorem bare_symbol_position_checks_witness :
    Effect.logWrite .skipped (some .longPosition) ∉
        (webhookHandler ⟨"s", 5, 100, 10000⟩
            (fun t => if t = "SBIN" then some ⟨"SBIN", "NSE", "NSE_EQ|SBIN"⟩ else none)
            ⟨some "s", some "SBIN", some "BUY", some 1, none⟩
            ⟨true, [⟨"SBIN", 10⟩], some 100000, some "oid"⟩ [] 5).effects ∧
      Effect.logWrite .skipped (some .shortPosition) ∉
        (webhookHandler ⟨"s", 5, 100, 10000⟩
            (fun t => if t = "SBIN" then some ⟨"SBIN", "NSE", "NSE_EQ|SBIN"⟩ else none)
            ⟨some "s", some "SBIN", some "BUY", some 1, none⟩
            ⟨true, [⟨"SBIN", 10⟩], some 100000, some "oid"⟩ [] 5).effects ∧
      (Effect.logWrite .skipped (some .maxPositions) ∈
          (webhookHandler ⟨"s", 5, 100, 10000⟩
              (fun t => if t = "SBIN" then some ⟨"SBIN", "NSE", "NSE_EQ|SBIN"⟩ else none)
              ⟨some "s", some "SBIN", some "BUY", some 1, none⟩
              ⟨true, [⟨"SBIN", 10⟩], some 100000, some "oid"⟩ [] 5).effects ↔
        (5 : Nat) ≤
          (([⟨"SBIN", 10⟩] : List Position).filter (fun q => q.quantity != 0)).length) :=
  bare_symbol_position_checks ⟨"s", 5, 100, 10000⟩
    (fun t => if t = "SBIN" then some ⟨"SBIN", "NSE", "NSE_EQ|SBIN"⟩ else none)
    ⟨some "s", some "SBIN", some "BUY", some 1, none⟩
    ⟨true, [⟨"SBIN", 10⟩], some 100000, some "oid"⟩ [] 5 "SBIN"
    rfl (by decide) (by decide) (by decide) (by decide) rfl (by decide)

/-- C2 counterexample: the duplicate tracker records only accepted
signals, so the 60-second window is measured from the last accepted
signal, not from the last seen one.  A signal at t=1 is accepted, a
second identical one at t=59000 is suppressed as a duplicate
(without refreshing the window), and a third at t=110000 — only 51
seconds after the second — is answered "received" rather than
"skipped", with no duplicate-signal log entry, although it follows an
identical authenticated, shape-valid signal by less than 60 seconds. -/
theorem duplicate_window_not_refreshed_cex :
    let cfg : Config := ⟨"s", 5, 100, 10000⟩
    let p : Payload := ⟨some "s", some "NSE:SBIN", some "BUY", some 1, none⟩
    let w : World := ⟨false, [], none, none⟩
    let r0 := webhookHandler cfg emptySymMap p w [] 1
    let r1 := webhookHandler cfg emptySymMap p w r0.dedup 59000
    let r2 := webhookHandler cfg emptySymMap p w r1.dedup 110000
    authorized cfg p = true ∧ shapeValid p = true ∧
      r1.resp = .skippedDuplicate ∧
      (110000 : Nat) - 59000 < duplicateSignalWindow ∧
      r2.resp = .received ∧
      Effect.logWrite .skipped (some .duplicateSignal) ∉ r2.effects := by
  decide

/-- C2 amended: for two authenticated, shape-valid signals with the
same (symbol, action) pair, where the FIRST is accepted (answered
"received", so its timestamp is recorded) at a nonzero time t1 and
the second arrives strictly less than 60000 ms later, the second is
answered "skipped" with reason "duplicate signal", exactly one
skipped log entry is written, and no order-placement (or any other)
call occurs for it. -/
theorem duplicate_after_accepted_skipped (cfg : Config) (m1 m2 : SymMap)
    (p1 p2 : Payload) (w1 w2 : World) (d0 : DedupMap) (t1 t2 : Nat)
    (ha1 : authorized cfg p1 = true) (hs1 : shapeValid p1 = true)
    (hacc : (webhookHandler cfg m1 p1 w1 d0 t1).resp = .received)
    (ha2 : authorized cfg p2 = true) (hs2 : shapeValid p2 = true)
    (hsym : p2.symbol = p1.symbol) (hact : p2.action = p1.action)
    (ht1 : t1 ≠ 0) (hlt : t2 - t1 < duplicateSignalWindow) :
    webhookHandler cfg m2 p2 w2 ((webhookHandler cfg m1 p1 w1 d0 t1).dedup) t2 =
      ⟨.skippedDuplicate, [.logWrite .skipped (some .duplicateSignal)],
        (webhookHandler cfg m1 p1 w1 d0 t1).dedup⟩ := by
  have hnd1 :
      (isDuplicateSignal (p1.symbol.getD "") (p1.action.getD "") d0 t1).1 = false := by
    by_cases hd :
        (isDuplicateSignal (p1.symbol.getD "") (p1.action.getD "") d0 t1).1 = true
    · rw [webhookHandler_duplicate cfg m1 p1 w1 d0 t1 ha1 hs1 hd] at hacc
      exact absurd hacc (by simp)
    · revert hd
      cases (isDuplicateSignal (p1.symbol.getD "") (p1.action.getD "") d0 t1).1 <;>
        simp
  have hded : (webhookHandler cfg m1 p1 w1 d0 t1).dedup =
      (isDuplicateSignal (p1.symbol.getD "") (p1.action.getD "") d0 t1).2 :=
    webhookHandler_dedup cfg m1 p1 w1 d0 t1 ha1 hs1
  have hlook : dedupLookup ((webhookHandler cfg m1 p1 w1 d0 t1).dedup)
      (dedupKey (p1.symbol.getD "") (p1.action.getD "")) = some t1 := by
    rw [hded]
    exact isDuplicateSignal_false_lookup _ _ _ _ hnd1
  have hdup2 : isDuplicateSignal (p2.symbol.getD "") (p2.action.getD "")
        ((webhookHandler cfg m1 p1 w1 d0 t1).dedup) t2 =
      (true, (webhookHandler cfg m1 p1 w1 d0 t1).dedup) := by
    apply isDuplicateSignal_true _ _ _ _ t1 _ ht1 hlt
    rw [hsym, hact]
    exact hlook
  rw [webhookHandler_duplicate cfg m2 p2 w2 _ t2 ha2 hs2 (by rw [hdup2]), hdup2]

/-- C2 amended witness: a concrete accepted signal at t=1 followed by
an identical one at t=50000. -/
theorem duplicate_after_accepted_skipped_witness :
    webhookHandler ⟨"s", 5, 100, 10000⟩ emptySymMap
        ⟨some "s", some "NSE:SBIN", some "BUY", some 1, none⟩
        ⟨false, [], none, none⟩
        ((webhookHandler ⟨"s", 5, 100, 10000⟩ emptySymMap
            ⟨some "s", some "NSE:SBIN", some "BUY", some 1, none⟩
            ⟨false, [], none, none⟩ [] 1).dedup) 50000 =
      ⟨.skippedDuplicate, [.logWrite .skipped (some .duplicateSignal)],
        (webhookHandler ⟨"s", 5, 100, 10000⟩ emptySymMap
            ⟨some "s", some "NSE:SBIN", some "BUY", some 1, none⟩
            ⟨false, [], none, none⟩ [] 1).dedup⟩ :=
  duplicate_after_accepted_skipped ⟨"s", 5, 100, 10000⟩ emptySymMap emptySymMap
    ⟨some "s", some "NSE:SBIN", some "BUY", some 1, none⟩
    ⟨some "s", some "NSE:SBIN", some "BUY", some 1, none⟩
    ⟨false, [], none, none⟩ ⟨false, [], none, none⟩ [] 1 50000
    (by decide) (by decide) (by decide) (by decide) (by decide) rfl rfl
    (by decide) (by decide)

/-- C4 counterexample: the exemption from the max-positions ceiling
tests only whether the fetched list contains ANY entry for the
signal's symbol, not an open (nonzero) one.  With the ceiling at 1,
one open position (TCS +5), and a FLAT entry (quantity 0) for SBIN, a
BUY for NSE:SBIN has nonzero-position count 1 ≥ 1 and no open SBIN
position — the claim's condition for the max-positions skip — yet the
code passes the check (the flat entry exempts it) and proceeds to the
funds fetch. -/
theorem max_positions_flat_entry_exempts_cex :
    let cfg : Config := ⟨"s", 1, 100, 10000⟩
    let p : Payload := ⟨some "s", some "NSE:SBIN", some "BUY", some 1, none⟩
    let w : World := ⟨true, [⟨"SBIN", 0⟩, ⟨"TCS", 5⟩], none, none⟩
    let m : SymMap :=
      fun t => if t = "SBIN" then some ⟨"SBIN", "NSE", "NSE_EQ|SBIN"⟩ else none
    let r := webhookHandler cfg m p w [] 5
    cfg.maxTotalPositions ≤ (w.positions.filter (fun q => q.quantity != 0)).length ∧
      (w.positions.filter (fun q => q.trading_symbol == "SBIN" && q.quantity != 0)) =
        [] ∧
      r.effects =
        [.tokenCheck, .positionsFetch, .fundsFetch,
          .logWrite .failed (some .fundsUnverified)] ∧
      Effect.logWrite .skipped (some .maxPositions) ∉ r.effects := by
  decide

/-- C4 amended: a signal reaching the position-count check is skipped
for the max-positions reason if and only if the number of fetched
positions with nonzero quantity is at least MAX_TOTAL_POSITIONS and
the fetched list contains no entry at all for the signal's trading
symbol; any entry for the symbol — open or flat — exempts the signal
from the ceiling. -/
theorem max_positions_skip_iff_no_entry (cfg : Config) (symbol : String) (qty : Nat)
    (pf : Option Nat) (w : World) :
    Effect.logWrite .skipped (some .maxPositions) ∈
        countStage cfg qty pf w (findExisting w.positions (tradingSymbolOf symbol)) ↔
      cfg.maxTotalPositions ≤
          (w.positions.filter (fun q => q.quantity != 0)).length ∧
        findExisting w.positions (tradingSymbolOf symbol) = none := by
  constructor
  · intro h
    by_cases hc : cfg.maxTotalPositions ≤
        (w.positions.filter (fun q => q.quantity != 0)).length ∧
        findExisting w.positions (tradingSymbolOf symbol) = none
    · exact hc
    · exfalso
      simp only [countStage] at h
      rw [if_neg hc] at h
      rcases skip_qtyStage cfg qty pf w _ h with h2 | h2 | h2 <;>
        exact LogReason.noConfusion h2
  · intro hc
    simp only [countStage]
    rw [if_pos hc]
    exact List.mem_singleton.mpr rfl

/-- C6 counterexample: with two non-NSE catalog entries sharing the
trading symbol "X" (BSE first, MCX last) the by-symbol map stores the
FIRST entry, not the last writer, and no NSE entry was involved — the
last-writer-wins-unless-NSE rule is violated. -/
theorem sync_last_writer_cex :
    let i1 : Instrument := ⟨"X", "BSE", "k1"⟩
    let i2 : Instrument := ⟨"X", "MCX", "k2"⟩
    syncSymbolMap emptySymMap [i1, i2] "X" = some i1 ∧
      i1 ≠ i2 ∧ i1.exchange ≠ "NSE" ∧ i2.exchange ≠ "NSE" := by
  decide

/-- A left fold that keeps the last match ignores its accumulator
except when no match exists. -/
theorem lastNseEntry_foldl_acc (t : List Instrument) (s : String)
    (acc : Option Instrument) :
    t.foldl
        (fun acc i =>
          if i.trading_symbol = s ∧ i.exchange = "NSE" then some i else acc)
        acc =
      match lastNseEntry t s with
      | some x => some x
      | none => acc := by
  induction t generalizing acc with
  | nil => cases acc <;> rfl
  | cons i t ih =>
    simp only [List.foldl_cons, lastNseEntry]
    by_cases hp : i.trading_symbol = s ∧ i.exchange = "NSE"
    · rw [if_pos hp, if_pos hp, ih (some i)]
      cases lastNseEntry t s <;> rfl
    · rw [if_neg hp, if_neg hp]
      exact ih acc

/-- Writing an instrument leaves every other symbol's slot
unchanged. -/
theorem recordInstrument_ne (m : SymMap) (i : Instrument) (s : String)
    (h : i.trading_symbol ≠ s) : recordInstrument m i s = m s := by
  unfold recordInstrument
  by_cases he : i.trading_symbol = ""
  · rw [if_pos he]
  · rw [if_neg he]
    by_cases hw : (m i.trading_symbol).isNone ∨ i.exchange = "NSE"
    · rw [if_pos hw]
      rw [if_neg (Ne.symm h)]
    · rw [if_neg hw]

/-- The by-symbol map after processing a catalog, starting from any
map: the last NSE entry for the symbol wins; with no NSE entry the
prior slot value stands, and with an empty prior slot the first entry
for the symbol wins. -/
theorem syncSymbolMap_characterization (l : List Instrument) (m : SymMap) (s : String)
    (hs : s ≠ "") :
    syncSymbolMap m l s =
      match lastNseEntry l s with
      | some i => some i
      | none =>
        match m s with
        | some j => some j
        | none => firstEntryFor l s := by
  induction l generalizing m with
  | nil =>
    show m s = _
    cases hms : m s <;> simp [lastNseEntry, firstEntryFor, hms]
  | cons i t ih =>
    show syncSymbolMap (recordInstrument m i) t s = _
    rw [ih (recordInstrument m i)]
    by_cases hsym : i.trading_symbol = s
    · by_cases hnse : i.exchange = "NSE"
      · have h1 : lastNseEntry (i :: t) s =
            match lastNseEntry t s with
            | some x => some x
            | none => some i := by
          unfold lastNseEntry
          rw [List.foldl_cons, if_pos ⟨hsym, hnse⟩]
          exact lastNseEntry_foldl_acc t s (some i)
        have h3 : recordInstrument m i s = some i := by
          unfold recordInstrument
          rw [if_neg (by rw [hsym]; exact hs), if_pos (Or.inr hnse)]
          rw [if_pos hsym.symm]
        rw [h1, h3]
        cases hlt : lastNseEntry t s <;> rfl
      · have h1 : lastNseEntry (i :: t) s = lastNseEntry t s := by
          unfold lastNseEntry
          rw [List.foldl_cons, if_neg (fun hand => hnse hand.2)]
        have h2 : firstEntryFor (i :: t) s = some i := by
          unfold firstEntryFor
          rw [List.find?_cons_of_pos _ (by simp [hsym])]
        cases hms : m s with
        | none =>
          have h3 : recordInstrument m i s = some i := by
            unfold recordInstrument
            rw [if_neg (by rw [hsym]; exact hs),
                if_pos (Or.inl (by rw [hsym, hms]; rfl))]
            rw [if_pos hsym.symm]
          rw [h1, h2, h3]
        | some j0 =>
          have h3 : recordInstrument m i s = some j0 := by
            unfold recordInstrument
            rw [if_neg (by rw [hsym]; exact hs),
                if_neg (by rw [hsym, hms]; simp [hnse])]
            exact hms
          rw [h1, h3]
    · have h1 : lastNseEntry (i :: t) s = lastNseEntry t s := by
        unfold lastNseEntry
        rw [List.foldl_cons, if_neg (fun hand => hsym hand.1)]
      have h2 : firstEntryFor (i :: t) s = firstEntryFor t s := by
        unfold firstEntryFor
        rw [List.find?_cons_of_neg _ (by simp [hsym])]
      have h3 : recordInstrument m i s = m s := recordInstrument_ne m i s hsym
      rw [h1, h2, h3]

/-- C6 amended: for every nonempty trading symbol, the by-symbol map
built by instrument sync stores the LAST NSE entry for that symbol
when one exists, and otherwise the FIRST entry for that symbol (a
non-NSE entry never overwrites an occupied slot, so without NSE the
first writer wins, not the last). -/
theorem sync_first_writer_nse_override (l : List Instrument) (s : String)
    (hs : s ≠ "") :
    syncSymbolMap emptySymMap l s =
      match lastNseEntry l s with
      | some i => some i
      | none => firstEntryFor l s := by
  rw [syncSymbolMap_characterization l emptySymMap s hs]
  cases lastNseEntry l s <;> rfl

/-- C6 amended witness: BSE, NSE, MCX entries in order — the NSE entry
is stored although MCX wrote last. -/
theorem sync_first_writer_nse_override_witness :
    ("X" ≠ "") ∧
      syncSymbolMap emptySymMap
          [⟨"X", "BSE", "k1"⟩, ⟨"X", "NSE", "k2"⟩, ⟨"X", "MCX", "k3"⟩] "X" =
        match
          lastNseEntry [⟨"X", "BSE", "k1"⟩, ⟨"X", "NSE", "k2"⟩, ⟨"X", "MCX", "k3"⟩]
            "X" with
        | some i => some i
        | none =>
          firstEntryFor [⟨"X", "BSE", "k1"⟩, ⟨"X", "NSE", "k2"⟩, ⟨"X", "MCX", "k3"⟩]
            "X" :=
  ⟨by decide,
    sync_first_writer_nse_override
      [⟨"X", "BSE", "k1"⟩, ⟨"X", "NSE", "k2"⟩, ⟨"X", "MCX", "k3"⟩] "X" (by decide)⟩

end ShivWebsocket
